import Mathlib

/-!
A shallow embedding of the agent-fleet orchestration engine of the
spiralverse-protocol repository: the agent registry
(`src/fleet/agent-registry.ts`), the roundtable governance manager
(`src/fleet/governance.ts`), the task dispatcher
(`src/fleet/task-dispatcher.ts`), and the Polly-pad / swarm flux model
(`src/fleet/polly-pad.ts`, `src/fleet/swarm.ts`).

Modelling conventions:
- JavaScript numbers are modelled as `ℚ` (trust scores, flux values, rates)
  or `ℤ` (timestamps, counters that the source compares and decrements);
- in-place mutation becomes explicit state passing: each operation returns
  the new state, and where the source throws, an `Except` result;
- `Map` objects keyed by id become lists updated at the matching id;
- emitted fleet events are returned as a list of event types;
- `Math.sqrt` (used only inside the swarm-coherence aggregate) is modelled
  as a function parameter, since no claim depends on its values;
- display-only fields that the orchestration logic never reads
  (descriptions, provider/model strings, metadata, spectral identities,
  note/sketch/tool workspaces, XP bookkeeping) are omitted.
-/

namespace Spiralverse

/-- Agent status, from `src/fleet/types.ts` (`AgentStatus`). -/
inductive AgentStatus
  | idle | busy | offline | suspended | quarantined
  deriving DecidableEq, Repr

/-- Task status, from `src/fleet/types.ts` (`TaskStatus`). -/
inductive TaskStatus
  | pending | assigned | running | completed | failed | cancelled | awaiting_approval
  deriving DecidableEq, Repr

/-- Task priority, from `src/fleet/types.ts` (`TaskPriority`). -/
inductive TaskPriority
  | critical | high | medium | low
  deriving DecidableEq, Repr

/-- Sacred Tongue governance tier, from `src/fleet/types.ts` (`GovernanceTier`). -/
inductive GovernanceTier
  | KO | AV | RU | CA | UM | DR
  deriving DecidableEq, Repr

/-- Agent capability, from `src/fleet/types.ts` (`AgentCapability`). -/
inductive AgentCapability
  | code_generation | code_review | testing | documentation | security_scan
  | deployment | monitoring | data_analysis | orchestration | communication
  deriving DecidableEq, Repr

/-- Trust classification level produced by the external trust evaluator
(`TrustScore.level` in `src/spaceTor/trust-manager.ts`, a collaborator
consumed as a black box). -/
inductive TrustLevel
  | HIGH | MEDIUM | LOW | CRITICAL
  deriving DecidableEq, Repr

/-- Trust score returned by the external trust evaluator: a classification
level plus a normalized numeric score. -/
structure TrustScore where
  level : TrustLevel
  normalized : ℚ
  deriving DecidableEq, Repr

/-- The external trust evaluator `computeTrustScore(id, vector)`,
a collaborator contract (spec section 6): deterministic in its inputs. -/
def TrustEvaluator : Type := String → List ℚ → TrustScore

/-- Fleet event types, from `src/fleet/types.ts` (`FleetEventType`). -/
inductive FleetEventType
  | agent_registered | agent_updated | agent_removed | agent_suspended
  | agent_quarantined | task_created | task_assigned | task_started
  | task_completed | task_failed | task_cancelled | roundtable_started
  | roundtable_vote | roundtable_concluded | trust_updated | security_alert
  deriving DecidableEq, Repr

/-- Fleet agent record, from `src/fleet/types.ts` (`FleetAgent`).
Display-only fields (`description`, `provider`, `model`, `metadata`,
`spectralIdentity`, `registeredAt`) are omitted; none of the verified
operations read them. -/
structure FleetAgent where
  id : String
  name : String
  capabilities : List AgentCapability
  status : AgentStatus
  trustVector : List ℚ
  trustScore : Option TrustScore
  maxConcurrentTasks : ℤ
  currentTaskCount : ℤ
  maxGovernanceTier : GovernanceTier
  lastActiveAt : ℤ
  tasksCompleted : ℕ
  successRate : ℚ
  deriving DecidableEq, Repr

/-- Model of `AgentRegistry.getAgent`: the registry `Map` is modelled as a list,
`get` as first match by id. -/
def getAgent (reg : List FleetAgent) (id : String) : Option FleetAgent :=
  reg.find? (fun a => a.id = id)

/-- In-place mutation of the agent stored under `id`: every list entry with
that id is rewritten by `f` (ids are unique keys in the source `Map`). -/
def updAgents (reg : List FleetAgent) (id : String) (f : FleetAgent → FleetAgent) :
    List FleetAgent :=
  reg.map (fun a => if a.id = id then f a else a)

/-- Structured error codes for registry operations (the source throws
`Error` objects with messages; we keep the distinguishing code). -/
inductive RegError
  | agentNotFound | agentBlocked | atCapacity | badTrustVector
  deriving DecidableEq, Repr

/-- Model of `AgentRegistry.updateTrustVector` (`src/fleet/agent-registry.ts:201`).
Recomputes the trust score via the evaluator; always emits `trust_updated`;
if the new classification is CRITICAL and the agent is not already
quarantined, sets status to quarantined and emits `agent_quarantined`
followed by `security_alert`.  The spectral-identity refresh is a
display-only collaborator call and is omitted. -/
def updateTrustVector (ev : TrustEvaluator) (reg : List FleetAgent) (now : ℤ)
    (id : String) (tv : List ℚ) :
    List FleetAgent × Except RegError (List FleetEventType) :=
  match getAgent reg id with
  | none => (reg, .error .agentNotFound)
  | some agent =>
    if tv.length ≠ 6 then (reg, .error .badTrustVector)
    else
      let score := ev id tv
      let reg1 := updAgents reg id (fun a =>
        { a with trustVector := tv, trustScore := some score, lastActiveAt := now })
      if score.level = .CRITICAL ∧ agent.status ≠ .quarantined then
        (updAgents reg1 id (fun a => { a with status := .quarantined }),
         .ok [.trust_updated, .agent_quarantined, .security_alert])
      else
        (reg1, .ok [.trust_updated])

/-- Model of `AgentRegistry.recordTaskCompletion` (`src/fleet/agent-registry.ts:252`).
Increments the completion counter, decrements the concurrent-task counter
(floored at 0), smooths the success rate with weight 1/10, then perturbs
the trust vector (+1/100 capped at 1 on success, -5/100 floored at 0 on
failure) through `updateTrustVector`, and finally flips a now-idle busy
agent back to idle. -/
def recordTaskCompletion (ev : TrustEvaluator) (reg : List FleetAgent) (now : ℤ)
    (id : String) (success : Bool) :
    List FleetAgent × Except RegError (List FleetEventType) :=
  match getAgent reg id with
  | none => (reg, .error .agentNotFound)
  | some agent =>
    let reg1 := updAgents reg id (fun a =>
      { a with
        tasksCompleted := a.tasksCompleted + 1,
        currentTaskCount := max 0 (a.currentTaskCount - 1),
        lastActiveAt := now,
        successRate := (1/10) * (if success then 1 else 0) + (1 - 1/10) * a.successRate })
    let newVec :=
      if success then agent.trustVector.map (fun v => min 1 (v + 1/100))
      else agent.trustVector.map (fun v => max 0 (v - 5/100))
    match updateTrustVector ev reg1 now id newVec with
    | (reg2, .ok events) =>
      let reg3 := updAgents reg2 id (fun a =>
        if a.currentTaskCount = 0 ∧ a.status = .busy then { a with status := .idle } else a)
      (reg3, .ok events)
    | (reg2, .error e) => (reg2, .error e)

/-- Model of `AgentRegistry.assignTask` (`src/fleet/agent-registry.ts:286`): refuses
suspended/quarantined agents and agents at capacity, otherwise increments
the concurrent-task counter and marks the agent busy. -/
def registryAssignTask (reg : List FleetAgent) (now : ℤ) (id : String) :
    List FleetAgent × Except RegError Unit :=
  match getAgent reg id with
  | none => (reg, .error .agentNotFound)
  | some agent =>
    if agent.status = .suspended ∨ agent.status = .quarantined then
      (reg, .error .agentBlocked)
    else if agent.currentTaskCount ≥ agent.maxConcurrentTasks then
      (reg, .error .atCapacity)
    else
      (updAgents reg id (fun a =>
        { a with currentTaskCount := a.currentTaskCount + 1,
                 status := .busy, lastActiveAt := now }), .ok ())

/-! ## Governance: roundtable sessions (`src/fleet/governance.ts`) -/

/-- Vote choice in a roundtable session. -/
inductive VoteChoice
  | approve | reject | abstain
  deriving DecidableEq, Repr

/-- Roundtable session status. -/
inductive SessionStatus
  | active | approved | rejected | expired
  deriving DecidableEq, Repr

/-- Roundtable session, from `src/fleet/types.ts` (`RoundtableSession`).
The vote `Map` is modelled as an insertion-ordered association list. -/
structure RoundtableSession where
  id : String
  topic : String
  taskId : Option String
  participants : List String
  votes : List (String × VoteChoice)
  requiredConsensus : ℚ
  status : SessionStatus
  createdAt : ℤ
  expiresAt : ℤ
  deriving DecidableEq, Repr

/-- Number of votes cast with a given choice. -/
def countVotes (s : RoundtableSession) (c : VoteChoice) : ℕ :=
  (s.votes.filter (fun p => p.2 = c)).length

/-- Model of `Math.ceil(session.participants.length * session.requiredConsensus)`,
the approval quorum used by `castVote` and `checkConsensus`. -/
def requiredVotes (s : RoundtableSession) : ℤ :=
  ⌈(s.participants.length : ℚ) * s.requiredConsensus⌉

/-- Which consensus rule concluded a session (the `result`/`reason`
carried by the `roundtable_concluded` event). -/
inductive ConcludeReason
  | approvedQuorum | rejectedMajority | rejectedExhaustion
  deriving DecidableEq, Repr

/-- Model of `GovernanceManager.checkConsensus` (`src/fleet/governance.ts:196`):
approval is checked first (approve-votes ≥ quorum), then majority reject
(reject-votes > participants/2), then exhaustion (all participants voted).
Returns the updated session and the concluding rule, if any. -/
def checkConsensus (s : RoundtableSession) : RoundtableSession × Option ConcludeReason :=
  let approvals := countVotes s .approve
  let rejections := countVotes s .reject
  let totalVotes := s.votes.length
  if (approvals : ℤ) ≥ requiredVotes s then
    ({ s with status := .approved }, some .approvedQuorum)
  else if (rejections : ℚ) > (s.participants.length : ℚ) / 2 then
    ({ s with status := .rejected }, some .rejectedMajority)
  else if totalVotes = s.participants.length then
    ({ s with status := .rejected }, some .rejectedExhaustion)
  else (s, none)

/-- Structured error codes for `castVote` (the source throws `Error`s with
messages; we keep the distinguishing code). -/
inductive VoteError
  | sessionNotActive | sessionExpired | notParticipant
  | alreadyVoted | agentNotFound | agentBlocked
  deriving DecidableEq, Repr

/-- Result record returned by a successful `castVote`. -/
structure VoteResult where
  currentVotes : ℕ
  requiredVotes : ℤ
  status : SessionStatus
  deriving DecidableEq, Repr

/-- Model of `GovernanceManager.castVote` (`src/fleet/governance.ts:129`) on a single
session (the session `Map` lookup is outside this model; a missing session
is a caller error before any session state is touched).  Guards in source
order: non-active status, lazy expiry (which mutates the session to
`expired` before throwing), non-participant, duplicate vote, unknown agent,
suspended/quarantined agent.  On success the vote is recorded and
`checkConsensus` runs.  Returns the session, the emitted governance events,
and the result. -/
def castVote (reg : List FleetAgent) (now : ℤ) (s : RoundtableSession)
    (agentId : String) (vote : VoteChoice) :
    RoundtableSession × List FleetEventType × Except VoteError VoteResult :=
  if s.status ≠ .active then (s, [], .error .sessionNotActive)
  else if s.expiresAt < now then
    ({ s with status := .expired }, [.roundtable_concluded], .error .sessionExpired)
  else if agentId ∉ s.participants then (s, [], .error .notParticipant)
  else if ∃ p ∈ s.votes, p.1 = agentId then (s, [], .error .alreadyVoted)
  else
    match getAgent reg agentId with
    | none => (s, [], .error .agentNotFound)
    | some agent =>
      if agent.status = .suspended ∨ agent.status = .quarantined then
        (s, [], .error .agentBlocked)
      else
        let s1 := { s with votes := s.votes ++ [(agentId, vote)] }
        let res := checkConsensus s1
        (res.1,
         .roundtable_vote :: (match res.2 with
           | some _ => [.roundtable_concluded]
           | none => []),
         .ok { currentVotes := res.1.votes.length,
               requiredVotes := requiredVotes res.1,
               status := res.1.status })

/-- Sequentially apply a list of `castVote` calls, keeping the session state
(successful or not, as the source mutates in place). -/
def runVotes (reg : List FleetAgent) (now : ℤ) (s : RoundtableSession)
    (vs : List (String × VoteChoice)) : RoundtableSession :=
  vs.foldl (fun st p => (castVote reg now st p.1 p.2).1) s

/-! ## Task dispatcher (`src/fleet/task-dispatcher.ts`) -/

/-- Fleet task record, from `src/fleet/types.ts` (`FleetTask`).  The opaque
`input`/`output` payloads and the description are omitted; the dispatcher
never inspects them. -/
structure FleetTask where
  id : String
  name : String
  requiredCapability : AgentCapability
  requiredTier : GovernanceTier
  priority : TaskPriority
  status : TaskStatus
  assignedAgentId : Option String
  minTrustScore : ℚ
  requiresApproval : Bool
  approvalVotes : Option (List String)
  requiredApprovals : ℕ
  createdAt : ℤ
  startedAt : Option ℤ
  completedAt : Option ℤ
  timeoutMs : ℤ
  retryCount : ℕ
  maxRetries : ℕ
  error : Option String
  deriving DecidableEq, Repr

/-- Dispatcher state: the task `Map`, the queue of task ids, and the shared
agent registry. -/
structure DispatcherState where
  tasks : List FleetTask
  taskQueue : List String
  agents : List FleetAgent
  deriving DecidableEq, Repr

/-- Model of `TaskDispatcher.getTask`: first match by id. -/
def getTask (d : DispatcherState) (id : String) : Option FleetTask :=
  d.tasks.find? (fun t => t.id = id)

/-- In-place mutation of the task stored under `id`. -/
def updTask (d : DispatcherState) (id : String) (f : FleetTask → FleetTask) :
    DispatcherState :=
  { d with tasks := d.tasks.map (fun t => if t.id = id then f t else t) }

/-- Model of `TaskDispatcher.removeFromQueue`: splice out the first occurrence. -/
def removeFromQueue (d : DispatcherState) (id : String) : DispatcherState :=
  { d with taskQueue := d.taskQueue.erase id }

/-- JavaScript `x || dflt` over an optional number: `undefined` and the
falsy value `0` both fall back to the default. -/
def jsOrQ (x : Option ℚ) (dflt : ℚ) : ℚ :=
  match x with
  | none => dflt
  | some v => if v = 0 then dflt else v

/-- Model of `tierOrder.indexOf` over the fixed array
`['KO', 'AV', 'RU', 'CA', 'UM', 'DR']`. -/
def tierIndex : GovernanceTier → ℕ
  | .KO => 0 | .AV => 1 | .RU => 2 | .CA => 3 | .UM => 4 | .DR => 5

/-- The dispatcher's effective trust of an agent:
`1 - (agent.trustScore?.normalized || 1)` from
`TaskDispatcher.findEligibleAgents`. -/
def effectiveTrust (agent : FleetAgent) : ℚ :=
  1 - jsOrQ (agent.trustScore.map TrustScore.normalized) 1

/-- The per-agent predicate of `TaskDispatcher.findEligibleAgents`
(`src/fleet/task-dispatcher.ts:856`): required capability present, status
idle or busy, spare capacity, tier ceiling at least the required tier, and
effective trust not below the task's minimum. -/
def eligible (task : FleetTask) (agent : FleetAgent) : Prop :=
  task.requiredCapability ∈ agent.capabilities ∧
  (agent.status = .idle ∨ agent.status = .busy) ∧
  agent.currentTaskCount < agent.maxConcurrentTasks ∧
  tierIndex task.requiredTier ≤ tierIndex agent.maxGovernanceTier ∧
  task.minTrustScore ≤ effectiveTrust agent

instance (task : FleetTask) (agent : FleetAgent) : Decidable (eligible task agent) :=
  inferInstanceAs (Decidable
    (task.requiredCapability ∈ agent.capabilities ∧
     (agent.status = .idle ∨ agent.status = .busy) ∧
     agent.currentTaskCount < agent.maxConcurrentTasks ∧
     tierIndex task.requiredTier ≤ tierIndex agent.maxGovernanceTier ∧
     task.minTrustScore ≤ effectiveTrust agent))

/-- Model of `TaskDispatcher.findEligibleAgents`: filter the registry by `eligible`. -/
def findEligibleAgents (agents : List FleetAgent) (task : FleetTask) : List FleetAgent :=
  agents.filter (fun a => decide (eligible task a))

/-- The candidate score of `TaskDispatcher.selectBestAgent`: trust 40%,
success rate 30%, spare-capacity fraction 20%, recency bonus up to 10. -/
def agentScore (now : ℤ) (agent : FleetAgent) : ℚ :=
  let trustScore := 1 - jsOrQ (agent.trustScore.map TrustScore.normalized) (1/2)
  let availability := 1 - (agent.currentTaskCount : ℚ) / (agent.maxConcurrentTasks : ℚ)
  let hoursSinceActive := ((now - agent.lastActiveAt : ℤ) : ℚ) / 3600000
  trustScore * 40 + agent.successRate * 30 + availability * 20 +
    max 0 (10 - hoursSinceActive)

/-- Model of `TaskDispatcher.selectBestAgent`: the source stable-sorts by descending
score and takes index 0, i.e. the first agent attaining the maximal score;
modelled as a left fold that replaces the incumbent only on a strictly
higher score.  `none` only for an empty candidate list. -/
def selectBestAgent (now : ℤ) : List FleetAgent → Option FleetAgent
  | [] => none
  | a :: rest =>
    some (rest.foldl (fun best x => if agentScore now best < agentScore now x then x else best) a)

/-- Result record of `TaskDispatcher.assignTask`
(the human-readable `reason` string is omitted). -/
structure TaskAssignmentResult where
  success : Bool
  taskId : String
  assignedAgentId : Option String
  deriving DecidableEq, Repr

/-- Model of `TaskDispatcher.executeAssignment` (`src/fleet/task-dispatcher.ts:918`):
reserve registry capacity, then mark the task assigned-then-running with
the agent and start time recorded; a registry refusal is caught and
reported as a failed result with the task untouched. -/
def executeAssignment (d : DispatcherState) (now : ℤ) (task : FleetTask)
    (agent : FleetAgent) : DispatcherState × TaskAssignmentResult :=
  match registryAssignTask d.agents now agent.id with
  | (reg1, .ok _) =>
    let d1 := updTask { d with agents := reg1 } task.id (fun t =>
      { t with status := .running, assignedAgentId := some agent.id,
               startedAt := some now })
    (d1, { success := true, taskId := task.id, assignedAgentId := some agent.id })
  | (_, .error _) =>
    (d, { success := false, taskId := task.id, assignedAgentId := none })

/-- Model of `TaskDispatcher.assignTask` (`src/fleet/task-dispatcher.ts:580`).
For an approval-gated task the source only flips the status to
`awaiting_approval` and resets the vote list; the selected agent's id is
returned in the result but is NOT stored on the task. -/
def assignTask (d : DispatcherState) (now : ℤ) (taskId : String) :
    DispatcherState × TaskAssignmentResult :=
  match getTask d taskId with
  | none => (d, { success := false, taskId := taskId, assignedAgentId := none })
  | some task =>
    if task.status ≠ .pending then
      (d, { success := false, taskId := taskId, assignedAgentId := none })
    else
      match selectBestAgent now (findEligibleAgents d.agents task) with
      | none => (d, { success := false, taskId := taskId, assignedAgentId := none })
      | some bestAgent =>
        if task.requiresApproval then
          (updTask d taskId (fun t =>
            { t with status := .awaiting_approval, approvalVotes := some [] }),
           { success := true, taskId := taskId, assignedAgentId := some bestAgent.id })
        else
          executeAssignment d now task bestAgent

/-- Model of `TaskDispatcher.approveTask` (`src/fleet/task-dispatcher.ts:646`).
Records an approval vote; once the vote count reaches the required count it
looks up `task.assignedAgentId` (asserted non-null in the source) and, only
if that yields an agent, executes the assignment. -/
def approveTask (d : DispatcherState) (now : ℤ) (taskId agentId : String) :
    DispatcherState × Bool :=
  match getTask d taskId with
  | none => (d, false)
  | some task =>
    if task.status ≠ .awaiting_approval then (d, false)
    else
      let votes := task.approvalVotes.getD []
      if agentId ∈ votes then (d, false)
      else
        let votes1 := votes ++ [agentId]
        let d1 := updTask d taskId (fun t => { t with approvalVotes := some votes1 })
        if task.requiredApprovals ≤ votes1.length then
          match task.assignedAgentId with
          | some aid =>
            match getAgent d1.agents aid with
            | some agent =>
              ((executeAssignment d1 now { task with approvalVotes := some votes1 } agent).1,
               true)
            | none => (d1, true)
          | none => (d1, true)
        else (d1, true)

/-- Structured error codes for dispatcher operations that throw. -/
inductive DispatchError
  | taskNotFound
  | registryError (e : RegError)
  deriving DecidableEq, Repr

/-- Model of `TaskDispatcher.failTask` (`src/fleet/task-dispatcher.ts:720`).
Increments the retry counter first; if the incremented counter is still
below `maxRetries` the task returns to `pending` with the agent cleared,
otherwise it becomes terminally `failed`, the outcome is reported to the
registry, and the task leaves the queue. -/
def failTask (ev : TrustEvaluator) (d : DispatcherState) (now : ℤ)
    (taskId err : String) : DispatcherState × Except DispatchError Unit :=
  match getTask d taskId with
  | none => (d, .error .taskNotFound)
  | some task =>
    let rc := task.retryCount + 1
    if rc < task.maxRetries then
      (updTask d taskId (fun t =>
        { t with retryCount := rc, status := .pending,
                 assignedAgentId := none, startedAt := none }), .ok ())
    else
      let d1 := updTask d taskId (fun t =>
        { t with retryCount := rc, status := .failed,
                 error := some err, completedAt := some now })
      match task.assignedAgentId with
      | some aid =>
        match recordTaskCompletion ev d1.agents now aid false with
        | (reg2, .ok _) => (removeFromQueue { d1 with agents := reg2 } taskId, .ok ())
        | (reg2, .error e) => ({ d1 with agents := reg2 }, .error (.registryError e))
      | none => (removeFromQueue d1 taskId, .ok ())

/-- Model of `TaskDispatcher.cancelTask` (`src/fleet/task-dispatcher.ts:768`).
No precondition on the current status: the task becomes `cancelled` with a
completion timestamp; if an agent id is recorded, that agent's task count
is decremented (floored at 0) and the agent goes idle at zero. -/
def cancelTask (d : DispatcherState) (now : ℤ) (taskId : String) :
    DispatcherState × Except DispatchError Unit :=
  match getTask d taskId with
  | none => (d, .error .taskNotFound)
  | some task =>
    let d1 := updTask d taskId (fun t =>
      { t with status := .cancelled, completedAt := some now })
    let d2 :=
      match task.assignedAgentId with
      | some aid =>
        match getAgent d1.agents aid with
        | some _ =>
          { d1 with agents := updAgents d1.agents aid (fun a =>
              let c := max 0 (a.currentTaskCount - 1)
              { a with currentTaskCount := c,
                       status := if c = 0 then .idle else a.status }) }
        | none => d1
      | none => d1
    (removeFromQueue d2 taskId, .ok ())

/-! ## Polly pads and swarm flux (`src/fleet/polly-pad.ts`, `src/fleet/swarm.ts`) -/

/-- Dimensional state of a pad's flux. -/
inductive DimensionalState
  | POLLY | QUASI | DEMI | COLLAPSED
  deriving DecidableEq, Repr

/-- Model of `getDimensionalState` from `src/fleet/polly-pad.ts:662` — the version
imported by the swarm coordinator and used by `PollyPadManager.stepFlux`:
POLLY at nu ≥ 0.9, QUASI at nu ≥ 0.5, DEMI at nu > 0.1, else COLLAPSED. -/
def getDimensionalState (nu : ℚ) : DimensionalState :=
  if nu ≥ 9/10 then .POLLY
  else if nu ≥ 1/2 then .QUASI
  else if nu > 1/10 then .DEMI
  else .COLLAPSED

/-- The second, unused copy of `getDimensionalState` in `src/fleet/types.ts`
(`DIMENSIONAL_THRESHOLDS`): POLLY at nu ≥ 0.8, QUASI at nu ≥ 0.5, DEMI at
nu ≥ 0.1, else COLLAPSED.  No flux-step code path calls this copy. -/
def getDimensionalStateTypes (nu : ℚ) : DimensionalState :=
  if nu ≥ 8/10 then .POLLY
  else if nu ≥ 1/2 then .QUASI
  else if nu ≥ 1/10 then .DEMI
  else .COLLAPSED

/-- Polly pad record (`src/fleet/polly-pad.ts` `PollyPad`), restricted to the
dimensional-flux and swarm-coordination fields the verified operations
touch; workspace contents, XP and audit bookkeeping are omitted. -/
structure PollyPad where
  id : String
  agentId : String
  nu : ℚ
  dimensionalState : DimensionalState
  fluxRate : ℚ
  targetNu : Option ℚ
  swarmId : Option String
  coherenceScore : ℚ
  lastSwarmSync : ℤ
  tier : GovernanceTier
  updatedAt : ℤ
  deriving DecidableEq, Repr

/-- Mean nu over a swarm's pads (`getSwarmState`, `src/fleet/swarm.ts:219`).
For an empty swarm the source snapshot hardcodes `avgNu = 0`, which agrees
with rational division by zero. -/
def avgNu (pads : List PollyPad) : ℚ :=
  (pads.map PollyPad.nu).sum / (pads.length : ℚ)

/-- Model of `SwarmCoordinator.syncSwarm` (`src/fleet/swarm.ts:259`): each pad's
coherence becomes `max(0, 1 - |nu - avgNu|)` — note there is no factor 2
on the distance — and its sync timestamp is refreshed. -/
def syncSwarm (now : ℤ) (pads : List PollyPad) : List PollyPad :=
  pads.map (fun pad =>
    { pad with coherenceScore := max 0 (1 - |pad.nu - avgNu pads|),
               lastSwarmSync := now })

/-- Swarm-level coherence from `getSwarmState`
(`max(0, 1 - sqrt(variance) * 2)`); `Math.sqrt` is modelled as the
function parameter `sqrtQ`. -/
def swarmCoherence (sqrtQ : ℚ → ℚ) (pads : List PollyPad) : ℚ :=
  let avg := avgNu pads
  let variance := (pads.map (fun p => (p.nu - avg) ^ 2)).sum / (pads.length : ℚ)
  max 0 (1 - sqrtQ variance * 2)

/-- Flux ODE parameters (`FluxODEParams`, `src/fleet/swarm.ts:63`). -/
structure FluxODEParams where
  alpha : ℚ
  beta : ℚ
  gamma : ℚ
  dt : ℚ
  deriving DecidableEq, Repr

/-- Model of `SwarmCoordinator.stepFluxODE` (`src/fleet/swarm.ts:277`): per pad,
`dNu = (alpha*(target - nu) - beta*fluxDecayRate + gamma*coherence*sign)*dt`
with the target defaulting to the swarm average; the new nu is clamped to
[0,1] and the dimensional label recomputed from it. -/
def stepFluxODE (sqrtQ : ℚ → ℚ) (params : FluxODEParams) (fluxDecayRate : ℚ)
    (pads : List PollyPad) : List PollyPad :=
  let avg := avgNu pads
  let coherence := swarmCoherence sqrtQ pads
  pads.map (fun pad =>
    let nuTarget := pad.targetNu.getD avg
    let attraction := params.alpha * (nuTarget - pad.nu)
    let decay := params.beta * fluxDecayRate
    let coherenceBoost := params.gamma * coherence *
      (if pad.coherenceScore > 1/2 then 1 else -1)
    let dNu := (attraction - decay + coherenceBoost) * params.dt
    let nu1 := max 0 (min 1 (pad.nu + dNu))
    { pad with nu := nu1, dimensionalState := getDimensionalState nu1,
               fluxRate := |dNu| })

/-- Model of `Math.sign` over the rationals. -/
def signQ (x : ℚ) : ℚ := if x > 0 then 1 else if x < 0 then -1 else 0

/-- Model of `PollyPadManager.setTargetFlux` (`src/fleet/polly-pad.ts:924`): the
target is clamped to [0,1] when stored. -/
def setTargetFlux (pad : PollyPad) (targetNu rate : ℚ) : PollyPad :=
  { pad with targetNu := some (max 0 (min 1 targetNu)), fluxRate := rate }

/-- Model of `PollyPadManager.stepFlux` (`src/fleet/polly-pad.ts:935`): no-op without
a target; within 1/1000 of the target, nu snaps to the target (unclamped)
and the target clears; otherwise nu moves by `sign(diff) * fluxRate` and is
clamped to [0,1].  In both stepping branches the dimensional label is
recomputed from the new nu. -/
def stepFlux (now : ℤ) (pad : PollyPad) : PollyPad :=
  match pad.targetNu with
  | none => pad
  | some target =>
    let diff := target - pad.nu
    if |diff| < 1/1000 then
      { pad with nu := target, targetNu := none, fluxRate := 0,
                 dimensionalState := getDimensionalState target, updatedAt := now }
    else
      let nu1 := max 0 (min 1 (pad.nu + signQ diff * pad.fluxRate))
      { pad with nu := nu1, dimensionalState := getDimensionalState nu1,
                 updatedAt := now }

/-! ## Helper lemmas on list-backed maps -/

/-- Looking up an id after an in-place task update yields the updated task,
provided the update preserves ids. -/
theorem getTask_updTask (d : DispatcherState) (id : String) (f : FleetTask → FleetTask)
    (hf : ∀ t, (f t).id = t.id) :
    getTask (updTask d id f) id = (getTask d id).map f := by
  show (d.tasks.map fun t => if t.id = id then f t else t).find? (fun t => t.id = id)
      = (d.tasks.find? (fun t => t.id = id)).map f
  induction d.tasks with
  | nil => rfl
  | cons x xs ih =>
    by_cases hx : x.id = id
    · simp only [List.map_cons, if_pos hx]
      rw [List.find?_cons_of_pos _ (by simp [hf, hx]),
          List.find?_cons_of_pos _ (by simp [hx])]
      rfl
    · simp only [List.map_cons, if_neg hx]
      rw [List.find?_cons_of_neg _ (by simp [hx]),
          List.find?_cons_of_neg _ (by simp [hx])]
      exact ih

/-- Looking up an id after an in-place agent update yields the updated
agent, provided the update preserves ids. -/
theorem getAgent_updAgents (reg : List FleetAgent) (id : String)
    (f : FleetAgent → FleetAgent) (hf : ∀ a, (f a).id = a.id) :
    getAgent (updAgents reg id f) id = (getAgent reg id).map f := by
  show (reg.map fun a => if a.id = id then f a else a).find? (fun a => a.id = id)
      = (reg.find? (fun a => a.id = id)).map f
  induction reg with
  | nil => rfl
  | cons x xs ih =>
    by_cases hx : x.id = id
    · simp only [List.map_cons, if_pos hx]
      rw [List.find?_cons_of_pos _ (by simp [hf, hx]),
          List.find?_cons_of_pos _ (by simp [hx])]
      rfl
    · simp only [List.map_cons, if_neg hx]
      rw [List.find?_cons_of_neg _ (by simp [hx]),
          List.find?_cons_of_neg _ (by simp [hx])]
      exact ih

/-- The best-agent fold returns its accumulator or a list element. -/
theorem foldl_best_mem (now : ℤ) (rest : List FleetAgent) (acc : FleetAgent) :
    rest.foldl (fun best x => if agentScore now best < agentScore now x then x else best)
        acc = acc ∨
    rest.foldl (fun best x => if agentScore now best < agentScore now x then x else best)
        acc ∈ rest := by
  induction rest generalizing acc with
  | nil => exact Or.inl rfl
  | cons y ys ih =>
    simp only [List.foldl_cons]
    rcases ih (if agentScore now acc < agentScore now y then y else acc) with h | h
    · rw [h]
      by_cases hy : agentScore now acc < agentScore now y
      · rw [if_pos hy]; exact Or.inr (List.mem_cons_self y ys)
      · rw [if_neg hy]; exact Or.inl rfl
    · exact Or.inr (List.mem_cons_of_mem y h)

/-- A selected best agent is one of the candidates. -/
theorem selectBestAgent_mem (now : ℤ) (l : List FleetAgent) (a : FleetAgent)
    (h : selectBestAgent now l = some a) : a ∈ l := by
  cases l with
  | nil => simp [selectBestAgent] at h
  | cons x xs =>
    simp only [selectBestAgent, Option.some_inj] at h
    rcases foldl_best_mem now xs x with h2 | h2
    · rw [h] at h2; rw [h2]; exact List.mem_cons_self x xs
    · rw [h] at h2; exact List.mem_cons_of_mem x h2

/-! ## Concrete fixtures used by counterexamples and witnesses -/

/-- A baseline healthy agent used in concrete scenarios. -/
def agentC1 : FleetAgent :=
  { id := "a1", name := "A1", capabilities := [.code_generation], status := .idle,
    trustVector := [1/2, 1/2, 1/2, 1/2, 1/2, 1/2],
    trustScore := some { level := .HIGH, normalized := 1/10 },
    maxConcurrentTasks := 3, currentTaskCount := 0, maxGovernanceTier := .DR,
    lastActiveAt := 0, tasksCompleted := 0, successRate := 1 }

/-- A pending approval-gated task with a one-vote quorum. -/
def taskC1 : FleetTask :=
  { id := "t1", name := "T1", requiredCapability := .code_generation,
    requiredTier := .KO, priority := .medium, status := .pending,
    assignedAgentId := none, minTrustScore := 0, requiresApproval := true,
    approvalVotes := none, requiredApprovals := 1, createdAt := 0,
    startedAt := none, completedAt := none, timeoutMs := 300000,
    retryCount := 0, maxRetries := 3, error := none }

/-- Dispatcher holding the approval-gated task and one eligible agent. -/
def dispC1 : DispatcherState :=
  { tasks := [taskC1], taskQueue := ["t1"], agents := [agentC1] }

/-- A trust evaluator that always returns a MEDIUM classification. -/
def evMed : TrustEvaluator := fun _ _ => { level := .MEDIUM, normalized := 1/2 }

/-- A trust evaluator that always returns a CRITICAL classification. -/
def evCritical : TrustEvaluator := fun _ _ => { level := .CRITICAL, normalized := 9/10 }

/-- An agent that is already quarantined. -/
def agentQ : FleetAgent := { agentC1 with id := "aq", status := .quarantined }

/-- A running task with retry ceiling 3 and no recorded agent. -/
def taskC4 : FleetTask :=
  { taskC1 with id := "t4", status := .running, requiresApproval := false,
                maxRetries := 3 }

/-- Dispatcher holding the retry-scenario task. -/
def dispC4 : DispatcherState :=
  { tasks := [taskC4], taskQueue := ["t4"], agents := [] }

/-- An already-completed task still recording an assigned agent. -/
def taskC10 : FleetTask :=
  { taskC4 with
    id := "t10",
    status := .completed,
    assignedAgentId := some "a1" }

/-- Dispatcher holding the completed task and its released agent. -/
def dispC10 : DispatcherState :=
  { tasks := [taskC10], taskQueue := [], agents := [agentC1] }

/-- A baseline healthy pad used in concrete scenarios. -/
def padA : PollyPad :=
  { id := "p1", agentId := "a1", nu := 1, dimensionalState := .POLLY,
    fluxRate := 0, targetNu := none, swarmId := some "s",
    coherenceScore := 1, lastSwarmSync := 0, tier := .KO, updatedAt := 0 }

/-- Second pad of the three-pad sync scenario (nu = 0.5). -/
def padB : PollyPad := { padA with id := "p2", nu := 1/2 }

/-- Third pad of the three-pad sync scenario (nu = 0). -/
def padC : PollyPad := { padA with id := "p3", nu := 0 }

/-! ## C7: swarm sync coherence formula -/

/-- C7 counterexample: for three pads with nu = [1, 1/2, 0], `syncSwarm`
gives the nu=1 pad coherence 1/2, whereas the claimed formula
`max(0, 1 − 2·|nu − mean|)` gives 0 — so the claim is false on this input. -/
theorem syncSwarm_no_double_penalty :
    ((syncSwarm 0 [padA, padB, padC]).map PollyPad.coherenceScore = [1/2, 1, 1/2]) ∧
    max (0 : ℚ) (1 - 2 * |padA.nu - avgNu [padA, padB, padC]|) = 0 := by
  constructor
  · simp [syncSwarm, avgNu, padA, padB, padC]
    norm_num [abs_of_nonneg, abs_of_nonpos]
  · simp [avgNu, padA, padB, padC]
    norm_num [abs_of_nonneg]

/-- C7 (amended): `syncSwarm` recomputes each member pad's coherence as
`max(0, 1 − |nu − swarm_mean_nu|)` (single, not doubled, distance penalty);
for three pads with nu = [1, 1/2, 0] the nu=1 pad's coherence becomes 1/2
and the nu=1/2 pad's coherence becomes 1. -/
theorem syncSwarm_coherence_formula :
    (∀ (now : ℤ) (pads : List PollyPad),
      (syncSwarm now pads).map PollyPad.coherenceScore =
        pads.map (fun p => max 0 (1 - |p.nu - avgNu pads|))) ∧
    (syncSwarm 0 [padA, padB, padC]).map PollyPad.coherenceScore = [1/2, 1, 1/2] := by
  constructor
  · intro now pads
    simp [syncSwarm]
  · simp [syncSwarm, avgNu, padA, padB, padC]
    norm_num [abs_of_nonneg, abs_of_nonpos]

/-! ## C8: dimensional label thresholds after flux steps -/

/-- Unfolding lemma: the per-pad step is a no-op without a target. -/
theorem stepFlux_eq_none (now : ℤ) (pad : PollyPad) (h : pad.targetNu = none) :
    stepFlux now pad = pad := by
  unfold stepFlux; rw [h]

/-- Unfolding lemma for the per-pad step with a target present. -/
theorem stepFlux_eq_some (now : ℤ) (pad : PollyPad) (tgt : ℚ)
    (h : pad.targetNu = some tgt) :
    stepFlux now pad =
      if |tgt - pad.nu| < 1/1000 then
        { pad with nu := tgt, targetNu := none, fluxRate := 0,
                   dimensionalState := getDimensionalState tgt, updatedAt := now }
      else
        { pad with nu := max 0 (min 1 (pad.nu + signQ (tgt - pad.nu) * pad.fluxRate)),
                   dimensionalState :=
                     getDimensionalState
                       (max 0 (min 1 (pad.nu + signQ (tgt - pad.nu) * pad.fluxRate))),
                   updatedAt := now } := by
  unfold stepFlux; rw [h]

/-- C8 counterexample: a pad stepping onto nu = 0.8 gets label QUASI, not
the full-participation label POLLY that the claimed `nu ≥ 0.8` threshold
would give (the flux-step code uses the polly-pad thresholds, where full
participation starts at 0.9). -/
theorem stepFlux_at_080_is_QUASI :
    (stepFlux 0 { padA with nu := 8/10, targetNu := some (8/10) }).dimensionalState
      = .QUASI ∧
    DimensionalState.QUASI ≠ DimensionalState.POLLY := by
  constructor
  · simp [stepFlux, padA, getDimensionalState]
    norm_num
  · decide

/-- C8 (amended): after each flux step (the per-pad step when a target is
set, and the per-swarm ODE step for every pad) the dimensional label equals
`getDimensionalState` of the new nu, whose thresholds are: POLLY iff
nu ≥ 0.9, QUASI iff 0.5 ≤ nu < 0.9, DEMI iff 0.1 < nu < 0.5, and
COLLAPSED iff nu ≤ 0.1. -/
theorem flux_step_label_thresholds :
    (∀ (now : ℤ) (pad : PollyPad) (t : ℚ), pad.targetNu = some t →
      (stepFlux now pad).dimensionalState = getDimensionalState (stepFlux now pad).nu) ∧
    (∀ (sq : ℚ → ℚ) (params : FluxODEParams) (rate : ℚ) (pads : List PollyPad)
        (p : PollyPad), p ∈ stepFluxODE sq params rate pads →
      p.dimensionalState = getDimensionalState p.nu) ∧
    (∀ nu : ℚ,
      (getDimensionalState nu = .POLLY ↔ 9/10 ≤ nu) ∧
      (getDimensionalState nu = .QUASI ↔ 1/2 ≤ nu ∧ nu < 9/10) ∧
      (getDimensionalState nu = .DEMI ↔ 1/10 < nu ∧ nu < 1/2) ∧
      (getDimensionalState nu = .COLLAPSED ↔ nu ≤ 1/10)) := by
  refine ⟨?_, ?_, ?_⟩
  · intro now pad t ht
    rw [stepFlux_eq_some now pad t ht]
    split <;> rfl
  · intro sq params rate pads p hp
    unfold stepFluxODE at hp
    simp only [List.mem_map] at hp
    obtain ⟨q, _, hq⟩ := hp
    subst hq
    rfl
  · intro nu
    unfold getDimensionalState
    split_ifs with h1 h2 h3 <;>
      refine ⟨?_, ?_, ?_, ?_⟩ <;>
      simp <;>
      first
        | linarith
        | (constructor <;> linarith)
        | (intro hle; linarith)

/-- C8 amended-claim witness: a pad with a set target has its label
recomputed by the flux step. -/
theorem flux_step_label_thresholds_witness :
    (stepFlux 0 { padA with targetNu := some (1/2) }).dimensionalState =
      getDimensionalState (stepFlux 0 { padA with targetNu := some (1/2) }).nu :=
  flux_step_label_thresholds.1 0 { padA with targetNu := some (1/2) } (1/2) rfl

/-! ## C9: flux values stay in [0,1] -/

/-- Target bounds are preserved by the per-pad step: a cleared or in-range
target stays cleared or in range. -/
theorem stepFlux_target_bounds (now : ℤ) (pad : PollyPad)
    (h : ∀ t, pad.targetNu = some t → 0 ≤ t ∧ t ≤ 1) :
    ∀ t, (stepFlux now pad).targetNu = some t → 0 ≤ t ∧ t ≤ 1 := by
  intro t ht
  cases hpt : pad.targetNu with
  | none =>
    rw [stepFlux_eq_none now pad hpt] at ht
    exact h t ht
  | some tgt =>
    rw [stepFlux_eq_some now pad tgt hpt] at ht
    by_cases hd : |tgt - pad.nu| < 1/1000
    · rw [if_pos hd] at ht
      simp at ht
    · rw [if_neg hd] at ht
      simp only [] at ht
      rw [hpt] at ht
      injection ht with ht2
      exact ht2 ▸ h tgt hpt

/-- One per-pad step keeps an in-range nu in range (given in-range targets). -/
theorem stepFlux_nu_bounds (now : ℤ) (pad : PollyPad)
    (htgt : ∀ t, pad.targetNu = some t → 0 ≤ t ∧ t ≤ 1)
    (h0 : 0 ≤ pad.nu) (h1 : pad.nu ≤ 1) :
    0 ≤ (stepFlux now pad).nu ∧ (stepFlux now pad).nu ≤ 1 := by
  cases hpt : pad.targetNu with
  | none =>
    rw [stepFlux_eq_none now pad hpt]
    exact ⟨h0, h1⟩
  | some tgt =>
    rw [stepFlux_eq_some now pad tgt hpt]
    by_cases hd : |tgt - pad.nu| < 1/1000
    · rw [if_pos hd]
      simpa using htgt tgt hpt
    · rw [if_neg hd]
      refine ⟨le_max_left 0 _, max_le (by norm_num) (min_le_left 1 _)⟩

/-- C9: flux values remain within [0,1].  (a) Every pad emerging from the
per-swarm ODE step has nu in [0,1], for all parameters, decay rates,
square-root oracles and input pads; (b) `setTargetFlux` only ever stores a
target inside [0,1]; (c) one per-pad step toward an in-range target lands
nu in [0,1] from any initial nu; (d) arbitrarily many per-pad steps keep nu
in [0,1] when targets are in range; (e) arbitrarily many (at least one)
ODE steps keep every pad's nu in [0,1]. -/
theorem flux_values_clamped :
    (∀ (sq : ℚ → ℚ) (params : FluxODEParams) (rate : ℚ) (pads : List PollyPad)
        (p : PollyPad), p ∈ stepFluxODE sq params rate pads → 0 ≤ p.nu ∧ p.nu ≤ 1) ∧
    (∀ (pad : PollyPad) (t r : ℚ),
        (setTargetFlux pad t r).targetNu = some (max 0 (min 1 t)) ∧
        0 ≤ max (0:ℚ) (min 1 t) ∧ max (0:ℚ) (min 1 t) ≤ 1) ∧
    (∀ (now : ℤ) (pad : PollyPad) (t : ℚ), pad.targetNu = some t → 0 ≤ t → t ≤ 1 →
        0 ≤ (stepFlux now pad).nu ∧ (stepFlux now pad).nu ≤ 1) ∧
    (∀ (now : ℤ) (pad : PollyPad) (n : ℕ),
        (∀ t, pad.targetNu = some t → 0 ≤ t ∧ t ≤ 1) → 0 ≤ pad.nu → pad.nu ≤ 1 →
        0 ≤ ((stepFlux now)^[n] pad).nu ∧ ((stepFlux now)^[n] pad).nu ≤ 1) ∧
    (∀ (sq : ℚ → ℚ) (params : FluxODEParams) (rate : ℚ) (n : ℕ)
        (pads : List PollyPad) (p : PollyPad),
        p ∈ (stepFluxODE sq params rate)^[n + 1] pads → 0 ≤ p.nu ∧ p.nu ≤ 1) := by
  have hODE : ∀ (sq : ℚ → ℚ) (params : FluxODEParams) (rate : ℚ)
      (pads : List PollyPad) (p : PollyPad),
      p ∈ stepFluxODE sq params rate pads → 0 ≤ p.nu ∧ p.nu ≤ 1 := by
    intro sq params rate pads p hp
    unfold stepFluxODE at hp
    simp only [List.mem_map] at hp
    obtain ⟨q, _, hq⟩ := hp
    subst hq
    refine ⟨le_max_left 0 _, max_le (by norm_num) (min_le_left 1 _)⟩
  refine ⟨hODE, ?_, ?_, ?_, ?_⟩
  · intro pad t r
    refine ⟨rfl, le_max_left 0 _, max_le (by norm_num) (min_le_left 1 _)⟩
  · intro now pad t ht h0 h1
    rw [stepFlux_eq_some now pad t ht]
    by_cases hd : |t - pad.nu| < 1/1000
    · rw [if_pos hd]
      exact ⟨h0, h1⟩
    · rw [if_neg hd]
      refine ⟨le_max_left 0 _, max_le (by norm_num) (min_le_left 1 _)⟩
  · intro now pad n
    induction n generalizing pad with
    | zero => intro _ h0 h1; simpa using ⟨h0, h1⟩
    | succ k ih =>
      intro htgt h0 h1
      rw [Function.iterate_succ_apply]
      exact ih (stepFlux now pad) (stepFlux_target_bounds now pad htgt)
        (stepFlux_nu_bounds now pad htgt h0 h1).1
        (stepFlux_nu_bounds now pad htgt h0 h1).2
  · intro sq params rate n pads p hp
    rw [Function.iterate_succ_apply'] at hp
    exact hODE sq params rate _ p hp

/-- C9 witness: a concrete out-of-range pad (nu = 5) with target 1/2 is
pulled back into [0,1] by one per-pad step. -/
theorem flux_values_clamped_witness :
    0 ≤ (stepFlux 0 { padA with nu := 5, targetNu := some (1/2), fluxRate := 1/10 }).nu ∧
    (stepFlux 0 { padA with nu := 5, targetNu := some (1/2), fluxRate := 1/10 }).nu ≤ 1 :=
  flux_values_clamped.2.2.1 0
    { padA with nu := 5, targetNu := some (1/2), fluxRate := 1/10 } (1/2)
    rfl (by norm_num) (by norm_num)

/-! ## C1: approval quorum never resumes assignment (code bug) -/

/-- C1: evaluating the code on a concrete approval-gated task shows the
stall.  `assignTask` moves the task to `awaiting_approval` and reports the
selected agent in its result, but does not store it on the task; when
`approveTask` then reaches the one-vote quorum it looks up
`task.assignedAgentId` (still empty), finds no agent, and leaves the task
in `awaiting_approval` forever — direct assignment never resumes. -/
theorem approveTask_stalls_at_quorum :
    (assignTask dispC1 0 "t1").2 =
      { success := true, taskId := "t1", assignedAgentId := some "a1" } ∧
    (getTask (assignTask dispC1 0 "t1").1 "t1").map FleetTask.status =
      some .awaiting_approval ∧
    (approveTask (assignTask dispC1 0 "t1").1 0 "t1" "voter1").2 = true ∧
    (getTask (approveTask (assignTask dispC1 0 "t1").1 0 "t1" "voter1").1 "t1").map
        FleetTask.status = some .awaiting_approval ∧
    (getTask (approveTask (assignTask dispC1 0 "t1").1 0 "t1" "voter1").1 "t1").map
        FleetTask.assignedAgentId = some none := by
  have helig : eligible taskC1 agentC1 := by
    refine ⟨by decide, Or.inl rfl, by decide, by decide, ?_⟩
    show (0 : ℚ) ≤ effectiveTrust agentC1
    simp only [effectiveTrust, jsOrQ, agentC1, Option.map_some']
    norm_num
  have hget : getTask dispC1 "t1" = some taskC1 := rfl
  have hfilter : findEligibleAgents dispC1.agents taskC1 = [agentC1] := by
    show List.filter (fun a => decide (eligible taskC1 a)) [agentC1] = [agentC1]
    have hdec : decide (eligible taskC1 agentC1) = true := decide_eq_true helig
    simp [List.filter_cons, hdec]
  have hsel : selectBestAgent 0 [agentC1] = some agentC1 := rfl
  have hassign : assignTask dispC1 0 "t1" =
      (updTask dispC1 "t1" (fun t =>
        { t with status := .awaiting_approval, approvalVotes := some [] }),
       { success := true, taskId := "t1", assignedAgentId := some agentC1.id }) := by
    simp only [assignTask, hget, hfilter, hsel]
    rw [if_neg (by decide : ¬ (taskC1.status ≠ TaskStatus.pending)),
        if_pos (by decide : taskC1.requiresApproval = true)]
  refine ⟨?_, ?_, ?_, ?_, ?_⟩ <;> rw [hassign] <;> rfl

/-! ## C3: dispatcher eligibility invariant -/

/-- C3: no assignment ever selects an ineligible agent.  Every agent that
survives `findEligibleAgents` — and hence every agent id returned by
`assignTask` — is not suspended or quarantined, has a tier ceiling at least
the task's required tier and effective trust at least the task's minimum,
and has spare concurrent-task capacity. -/
theorem dispatcher_never_selects_ineligible (d : DispatcherState) (now : ℤ)
    (tid : String) (task : FleetTask) (h : getTask d tid = some task) :
    (∀ agent ∈ findEligibleAgents d.agents task,
      agent.status ≠ .suspended ∧ agent.status ≠ .quarantined ∧
      tierIndex task.requiredTier ≤ tierIndex agent.maxGovernanceTier ∧
      task.minTrustScore ≤ effectiveTrust agent ∧
      agent.currentTaskCount < agent.maxConcurrentTasks) ∧
    (∀ aid, (assignTask d now tid).2.assignedAgentId = some aid →
      ∃ agent, agent ∈ d.agents ∧ agent.id = aid ∧
        agent.status ≠ .suspended ∧ agent.status ≠ .quarantined ∧
        tierIndex task.requiredTier ≤ tierIndex agent.maxGovernanceTier ∧
        task.minTrustScore ≤ effectiveTrust agent ∧
        agent.currentTaskCount < agent.maxConcurrentTasks) := by
  have hmain : ∀ agent ∈ findEligibleAgents d.agents task,
      agent.status ≠ .suspended ∧ agent.status ≠ .quarantined ∧
      tierIndex task.requiredTier ≤ tierIndex agent.maxGovernanceTier ∧
      task.minTrustScore ≤ effectiveTrust agent ∧
      agent.currentTaskCount < agent.maxConcurrentTasks := by
    intro agent hmem
    unfold findEligibleAgents at hmem
    rw [List.mem_filter] at hmem
    obtain ⟨-, helig⟩ := hmem
    rw [decide_eq_true_eq] at helig
    obtain ⟨_, hstat, hcap, htier, htrust⟩ := helig
    refine ⟨?_, ?_, htier, htrust, hcap⟩ <;>
      rcases hstat with hstat | hstat <;> simp [hstat]
  refine ⟨hmain, ?_⟩
  intro aid hass
  simp only [assignTask, h] at hass
  by_cases hp : task.status ≠ .pending
  · rw [if_pos hp] at hass
    simp at hass
  · rw [if_neg hp] at hass
    cases hsel : selectBestAgent now (findEligibleAgents d.agents task) with
    | none =>
      rw [hsel] at hass
      simp at hass
    | some best =>
      rw [hsel] at hass
      have hbmem : best ∈ findEligibleAgents d.agents task :=
        selectBestAgent_mem now _ best hsel
      have hbreg : best ∈ d.agents := by
        have := hbmem
        unfold findEligibleAgents at this
        exact (List.mem_filter.mp this).1
      have hprops := hmain best hbmem
      cases happ : task.requiresApproval with
      | true =>
        rw [happ] at hass
        simp at hass
        exact ⟨best, hbreg, hass, hprops⟩
      | false =>
        rw [happ] at hass
        simp only [Bool.false_eq_true, if_false] at hass
        rcases hra : registryAssignTask d.agents now best.id with ⟨reg1, res⟩
        cases res with
        | ok u =>
          simp only [executeAssignment, hra] at hass
          simp at hass
          exact ⟨best, hbreg, hass, hprops⟩
        | error e =>
          simp only [executeAssignment, hra] at hass
          simp at hass

/-- C3 witness: the invariant instantiated on the concrete one-agent
dispatcher. -/
theorem dispatcher_never_selects_ineligible_witness :
    (∀ agent ∈ findEligibleAgents dispC1.agents taskC1,
      agent.status ≠ .suspended ∧ agent.status ≠ .quarantined ∧
      tierIndex taskC1.requiredTier ≤ tierIndex agent.maxGovernanceTier ∧
      taskC1.minTrustScore ≤ effectiveTrust agent ∧
      agent.currentTaskCount < agent.maxConcurrentTasks) ∧
    (∀ aid, (assignTask dispC1 0 "t1").2.assignedAgentId = some aid →
      ∃ agent, agent ∈ dispC1.agents ∧ agent.id = aid ∧
        agent.status ≠ .suspended ∧ agent.status ≠ .quarantined ∧
        tierIndex taskC1.requiredTier ≤ tierIndex agent.maxGovernanceTier ∧
        taskC1.minTrustScore ≤ effectiveTrust agent ∧
        agent.currentTaskCount < agent.maxConcurrentTasks) :=
  dispatcher_never_selects_ineligible dispC1 0 "t1" taskC1 rfl

/-! ## C4: retry boundary of failTask (corrected) -/

/-- C4 counterexample: for a task with `maxRetries = 3`, the first two
`failTask` calls return it to `pending` but the THIRD call already makes
it terminally `failed` — not the fourth as claimed (the source increments
the counter before comparing with `<`). -/
theorem failTask_third_failure_terminal :
    (getTask (failTask evMed dispC4 0 "t4" "boom").1 "t4").map FleetTask.status =
      some .pending ∧
    (getTask (failTask evMed (failTask evMed dispC4 0 "t4" "boom").1
        0 "t4" "boom").1 "t4").map FleetTask.status = some .pending ∧
    (getTask (failTask evMed (failTask evMed (failTask evMed dispC4 0 "t4" "boom").1
        0 "t4" "boom").1 0 "t4" "boom").1 "t4").map FleetTask.status = some .failed ∧
    TaskStatus.failed ≠ TaskStatus.pending := by
  decide

/-- C4 (amended): `failTask` returns the task to `pending` with the agent
cleared while the incremented retry count is still below `maxRetries`, and
becomes terminally `failed` once the incremented count reaches it; so with
`maxRetries = 3` the first two failures retry and the third is terminal. -/
theorem failTask_retry_boundary (ev : TrustEvaluator) (d : DispatcherState)
    (now : ℤ) (tid err : String) (task : FleetTask)
    (h : getTask d tid = some task) :
    (task.retryCount + 1 < task.maxRetries →
      getTask (failTask ev d now tid err).1 tid =
        some { task with retryCount := task.retryCount + 1, status := .pending,
                         assignedAgentId := none, startedAt := none }) ∧
    (task.maxRetries ≤ task.retryCount + 1 →
      (getTask (failTask ev d now tid err).1 tid).map FleetTask.status =
        some .failed ∧
      (getTask (failTask ev d now tid err).1 tid).map FleetTask.retryCount =
        some (task.retryCount + 1)) := by
  constructor
  · intro hr
    simp only [failTask, h, if_pos hr]
    have hres := getTask_updTask d tid (fun t =>
      { t with retryCount := task.retryCount + 1, status := TaskStatus.pending,
               assignedAgentId := none, startedAt := none }) (fun t => rfl)
    rw [hres, h]
    rfl
  · intro hr
    have hr2 : ¬ task.retryCount + 1 < task.maxRetries := by omega
    simp only [failTask, h, if_neg hr2]
    have htasks : ∀ (d2 : DispatcherState),
        d2.tasks = (updTask d tid (fun t =>
          { t with retryCount := task.retryCount + 1, status := .failed,
                   error := some err, completedAt := some now })).tasks →
        (getTask d2 tid).map FleetTask.status = some .failed ∧
        (getTask d2 tid).map FleetTask.retryCount = some (task.retryCount + 1) := by
      intro d2 hd2
      have heq : getTask d2 tid = getTask (updTask d tid (fun t =>
          { t with retryCount := task.retryCount + 1, status := .failed,
                   error := some err, completedAt := some now })) tid := by
        unfold getTask; rw [hd2]
      have hres := getTask_updTask d tid (fun t =>
        { t with retryCount := task.retryCount + 1, status := TaskStatus.failed,
                 error := some err, completedAt := some now }) (fun t => rfl)
      rw [heq, hres, h]
      exact ⟨rfl, rfl⟩
    cases hag : task.assignedAgentId with
    | none =>
      simpa using htasks _ rfl
    | some aid =>
      rcases hrc : recordTaskCompletion ev (updTask d tid fun t =>
          { t with retryCount := task.retryCount + 1, status := .failed,
                   error := some err, completedAt := some now }).agents now aid false
        with ⟨reg2, res⟩
      cases res with
      | ok evs => simpa [hrc] using htasks _ rfl
      | error e => simpa [hrc] using htasks _ rfl

/-- C4 amended-claim witness: with retry count 0 and ceiling 3, one failure
returns the concrete task to pending with the agent cleared. -/
theorem failTask_retry_boundary_witness :
    getTask (failTask evMed dispC4 0 "t4" "boom").1 "t4" =
      some { taskC4 with retryCount := 1, status := .pending,
                         assignedAgentId := none, startedAt := none } :=
  (failTask_retry_boundary evMed dispC4 0 "t4" "boom" taskC4 rfl).1 (by decide)

/-! ## C5: critical trust auto-quarantine (corrected) -/

/-- C5 counterexample: updating an ALREADY-quarantined agent's trust vector
to a CRITICAL-classified vector emits only `trust_updated` — no
security-alert event — refuting the claim that the alert is emitted
unconditionally on every critical-classified update. -/
theorem updateTrustVector_alert_skipped_when_quarantined :
    (updateTrustVector evCritical [agentQ] 0 "aq" [1, 1, 1, 1, 1, 1]).2 =
      .ok [.trust_updated] ∧
    FleetEventType.security_alert ∉ ([.trust_updated] : List FleetEventType) :=
  ⟨rfl, by simp⟩

/-- C5 (amended): whenever `updateTrustVector` computes a CRITICAL
classification for a registered agent (6-dimensional vector), the agent
ends in status `quarantined`; and provided the agent was not already
quarantined, the security-alert event (preceded by `agent_quarantined`) is
emitted — without any caller requesting quarantine. -/
theorem updateTrustVector_critical_autoquarantine (ev : TrustEvaluator)
    (reg : List FleetAgent) (now : ℤ) (id : String) (tv : List ℚ)
    (agent : FleetAgent) (hA : getAgent reg id = some agent)
    (hlen : tv.length = 6) (hcrit : (ev id tv).level = .CRITICAL) :
    (getAgent (updateTrustVector ev reg now id tv).1 id).map FleetAgent.status =
      some .quarantined ∧
    (agent.status ≠ .quarantined →
      (updateTrustVector ev reg now id tv).2 =
        .ok [.trust_updated, .agent_quarantined, .security_alert]) := by
  have h6 : ¬ tv.length ≠ 6 := by simp [hlen]
  by_cases hq : agent.status = .quarantined
  · have hcond : ¬ ((ev id tv).level = .CRITICAL ∧ agent.status ≠ .quarantined) := by
      simp [hq]
    simp only [updateTrustVector, hA, if_neg h6, if_neg hcond]
    constructor
    · have hres := getAgent_updAgents reg id (fun a =>
        { a with trustVector := tv, trustScore := some (ev id tv),
                 lastActiveAt := now }) (fun a => rfl)
      rw [hres, hA]
      simp [hq]
    · intro hcontra
      exact absurd hq hcontra
  · have hcond : (ev id tv).level = .CRITICAL ∧ agent.status ≠ .quarantined :=
      ⟨hcrit, hq⟩
    simp only [updateTrustVector, hA, if_neg h6, if_pos hcond]
    constructor
    · have hres1 := getAgent_updAgents reg id (fun a =>
        { a with trustVector := tv, trustScore := some (ev id tv),
                 lastActiveAt := now }) (fun a => rfl)
      have hres2 := getAgent_updAgents
        (updAgents reg id (fun a =>
          { a with trustVector := tv, trustScore := some (ev id tv),
                   lastActiveAt := now })) id
        (fun a => { a with status := AgentStatus.quarantined }) (fun a => rfl)
      rw [hres2, hres1, hA]
      rfl
    · intro _
      trivial

/-- C5 amended-claim witness: a concrete idle agent hit by a CRITICAL
classification is quarantined and the full alert sequence is emitted. -/
theorem updateTrustVector_critical_autoquarantine_witness :
    (getAgent (updateTrustVector evCritical [agentC1] 0 "a1"
        [1, 1, 1, 1, 1, 1]).1 "a1").map FleetAgent.status = some .quarantined ∧
    (FleetAgent.status agentC1 ≠ .quarantined →
      (updateTrustVector evCritical [agentC1] 0 "a1" [1, 1, 1, 1, 1, 1]).2 =
        .ok [.trust_updated, .agent_quarantined, .security_alert]) :=
  updateTrustVector_critical_autoquarantine evCritical [agentC1] 0 "a1"
    [1, 1, 1, 1, 1, 1] agentC1 rfl (by decide) rfl

/-! ## C10: cancelTask is unconditional -/

/-- C10: `cancelTask` on any existing task — whatever its current status,
including terminal `completed` or `failed` — sets status `cancelled`,
records the completion timestamp, and, when an agent id is recorded,
decrements that agent's task count floored at zero (going idle at zero),
even if the count was already released. -/
theorem cancelTask_cancels_any_status (d : DispatcherState) (now : ℤ)
    (tid : String) (task : FleetTask) (h : getTask d tid = some task) :
    (cancelTask d now tid).2 = .ok () ∧
    (getTask (cancelTask d now tid).1 tid).map FleetTask.status = some .cancelled ∧
    (getTask (cancelTask d now tid).1 tid).map FleetTask.completedAt =
      some (some now) ∧
    (∀ aid agent, task.assignedAgentId = some aid →
      getAgent d.agents aid = some agent →
      getAgent (cancelTask d now tid).1.agents aid = some
        { agent with
          currentTaskCount := max 0 (agent.currentTaskCount - 1),
          status := if max 0 (agent.currentTaskCount - 1) = 0 then .idle
                    else agent.status }) := by
  have hstat : ∀ (d2 : DispatcherState),
      d2.tasks = (updTask d tid (fun t =>
        { t with status := .cancelled, completedAt := some now })).tasks →
      (getTask d2 tid).map FleetTask.status = some .cancelled ∧
      (getTask d2 tid).map FleetTask.completedAt = some (some now) := by
    intro d2 hd2
    have heq : getTask d2 tid = getTask (updTask d tid (fun t =>
        { t with status := .cancelled, completedAt := some now })) tid := by
      unfold getTask; rw [hd2]
    have hres := getTask_updTask d tid (fun t =>
      { t with status := TaskStatus.cancelled, completedAt := some now })
      (fun t => rfl)
    rw [heq, hres, h]
    exact ⟨rfl, rfl⟩
  have hagents : ∀ (f : FleetTask → FleetTask), (updTask d tid f).agents = d.agents :=
    fun f => rfl
  cases hag : task.assignedAgentId with
  | none =>
    have hcancel : cancelTask d now tid =
        (removeFromQueue (updTask d tid (fun t =>
          { t with status := .cancelled, completedAt := some now })) tid, .ok ()) := by
      simp only [cancelTask, h, hag]
    refine ⟨?_, ?_, ?_, ?_⟩
    · rw [hcancel]
    · rw [hcancel]; exact (hstat _ rfl).1
    · rw [hcancel]; exact (hstat _ rfl).2
    · intro aid agent heq hagent
      exact absurd heq (by simp)
  | some aid0 =>
    cases hga : getAgent d.agents aid0 with
    | none =>
      have hcancel : cancelTask d now tid =
          (removeFromQueue (updTask d tid (fun t =>
            { t with status := .cancelled, completedAt := some now })) tid,
           .ok ()) := by
        simp only [cancelTask, h, hag, hagents, hga]
      refine ⟨?_, ?_, ?_, ?_⟩
      · rw [hcancel]
      · rw [hcancel]; exact (hstat _ rfl).1
      · rw [hcancel]; exact (hstat _ rfl).2
      · intro aid agent heq hagent
        injection heq with heq2
        subst heq2
        rw [hagent] at hga
        exact absurd hga (by simp)
    | some agent0 =>
      have hcancel : cancelTask d now tid =
          (removeFromQueue
            { (updTask d tid (fun t =>
                { t with status := .cancelled, completedAt := some now })) with
              agents := updAgents d.agents aid0 (fun a =>
                let c := max 0 (a.currentTaskCount - 1)
                { a with currentTaskCount := c,
                         status := if c = 0 then AgentStatus.idle else a.status }) }
            tid, .ok ()) := by
        simp only [cancelTask, h, hag, hagents, hga]
      refine ⟨?_, ?_, ?_, ?_⟩
      · rw [hcancel]
      · rw [hcancel]; exact (hstat _ rfl).1
      · rw [hcancel]; exact (hstat _ rfl).2
      · intro aid agent heq hagent
        injection heq with heq2
        subst heq2
        rw [hagent] at hga
        injection hga with hga3
        subst hga3
        rw [hcancel]
        have hres := getAgent_updAgents d.agents aid0 (fun a =>
          let c := max 0 (a.currentTaskCount - 1)
          { a with currentTaskCount := c,
                   status := if c = 0 then AgentStatus.idle else a.status })
          (fun a => rfl)
        show getAgent (updAgents d.agents aid0 (fun a =>
          let c := max 0 (a.currentTaskCount - 1)
          { a with currentTaskCount := c,
                   status := if c = 0 then AgentStatus.idle else a.status })) aid0 = _
        rw [hres, hagent]
        rfl

/-- C10 witness: cancelling a concrete already-completed task with a
recorded agent whose count was already released (count 0) leaves the count
floored at 0 and the task cancelled. -/
theorem cancelTask_cancels_any_status_witness :
    (cancelTask dispC10 7 "t10").2 = .ok () ∧
    (getTask (cancelTask dispC10 7 "t10").1 "t10").map FleetTask.status =
      some .cancelled ∧
    (getTask (cancelTask dispC10 7 "t10").1 "t10").map FleetTask.completedAt =
      some (some 7) ∧
    (∀ aid agent, taskC10.assignedAgentId = some aid →
      getAgent dispC10.agents aid = some agent →
      getAgent (cancelTask dispC10 7 "t10").1.agents aid = some
        { agent with
          currentTaskCount := max 0 (agent.currentTaskCount - 1),
          status := if max 0 (agent.currentTaskCount - 1) = 0 then .idle
                    else agent.status }) :=
  cancelTask_cancels_any_status dispC10 7 "t10" taskC10 rfl

/-! ## C6: castVote guard rejections -/

/-- C6: every guard of `castVote` rejects with an error and — except for
lazy expiry, which flips the session to `expired` — leaves the session
unchanged and emits no event.  In particular a second vote by a participant
who already voted is rejected with no side effects at all. -/
theorem castVote_guard_rejections (reg : List FleetAgent) (now : ℤ)
    (s : RoundtableSession) (aid : String) (v : VoteChoice) :
    (s.status = .active → ¬ s.expiresAt < now → aid ∈ s.participants →
       (∃ p ∈ s.votes, p.1 = aid) →
       castVote reg now s aid v = (s, [], .error .alreadyVoted)) ∧
    (s.status ≠ .active → castVote reg now s aid v = (s, [], .error .sessionNotActive)) ∧
    (s.status = .active → s.expiresAt < now →
       castVote reg now s aid v =
         ({ s with status := .expired }, [.roundtable_concluded],
          .error .sessionExpired)) ∧
    (s.status = .active → ¬ s.expiresAt < now → aid ∉ s.participants →
       castVote reg now s aid v = (s, [], .error .notParticipant)) ∧
    (∀ agent, s.status = .active → ¬ s.expiresAt < now → aid ∈ s.participants →
       ¬ (∃ p ∈ s.votes, p.1 = aid) → getAgent reg aid = some agent →
       (agent.status = .suspended ∨ agent.status = .quarantined) →
       castVote reg now s aid v = (s, [], .error .agentBlocked)) := by
  refine ⟨?_, ?_, ?_, ?_, ?_⟩
  · intro h1 h2 h3 h4
    unfold castVote
    rw [if_neg (by simp [h1]), if_neg h2, if_neg (by simp [h3]), if_pos h4]
  · intro h1
    unfold castVote
    rw [if_pos h1]
  · intro h1 h2
    unfold castVote
    rw [if_neg (by simp [h1]), if_pos h2]
  · intro h1 h2 h3
    unfold castVote
    rw [if_neg (by simp [h1]), if_neg h2, if_pos h3]
  · intro agent h1 h2 h3 h4 h5 h6
    unfold castVote
    rw [if_neg (by simp [h1]), if_neg h2, if_neg (by simp [h3]), if_neg h4]
    simp only [h5]
    rw [if_pos h6]

/-- A two-participant active session where agent "a" has already voted. -/
def sessC6 : RoundtableSession :=
  { id := "s1", topic := "demo", taskId := none, participants := ["a", "b"],
    votes := [("a", .approve)], requiredConsensus := 1, status := .active,
    createdAt := 0, expiresAt := 10 }

/-- C6 witness: the concrete double-vote rejection with no side effects. -/
theorem castVote_guard_rejections_witness :
    castVote [] 0 sessC6 "a" .approve = (sessC6, [], .error .alreadyVoted) :=
  (castVote_guard_rejections [] 0 sessC6 "a" .approve).1 rfl (by decide)
    (by decide) (by decide)

/-! ## C2: roundtable consensus characterization -/

/-- Bridge from the source's rational majority test
(`rejections > participants / 2`) to a natural-number statement. -/
theorem rej_gt_half_iff (r N : ℕ) :
    ((N : ℚ) / 2 < (r : ℚ)) ↔ N < 2 * r := by
  rw [div_lt_iff₀ (by norm_num : (0:ℚ) < 2)]
  norm_cast
  omega

/-- The invariant maintained by voting on a session with `N` participants
and approval quorum `req`: an active (or lazily expired) session has not
yet reached quorum, majority-reject, or exhaustion; an approved session
reached quorum with rejects never past half; a rejected session missed
quorum and hit majority-reject or exhaustion. -/
def consensusInv (N : ℕ) (req : ℤ) (s : RoundtableSession) : Prop :=
  s.participants.length = N ∧ requiredVotes s = req ∧
  ((s.status = .active ∨ s.status = .expired) →
     (countVotes s .approve : ℤ) < req ∧ 2 * countVotes s .reject ≤ N ∧
     s.votes.length ≠ N) ∧
  (s.status = .approved →
     req ≤ (countVotes s .approve : ℤ) ∧ 2 * countVotes s .reject ≤ N) ∧
  (s.status = .rejected →
     (countVotes s .approve : ℤ) < req ∧
     (N < 2 * countVotes s .reject ∨ s.votes.length = N))

/-- Recording one more vote shifts each count by at most one. -/
theorem countVotes_append (s : RoundtableSession) (aid : String) (v c : VoteChoice) :
    countVotes { s with votes := s.votes ++ [(aid, v)] } c =
      countVotes s c + if v = c then 1 else 0 := by
  unfold countVotes
  rw [List.filter_append, List.length_append]
  by_cases hv : v = c <;> simp [hv]

/-- Unfolding lemma: the session component of `checkConsensus`. -/
theorem checkConsensus_fst (s : RoundtableSession) :
    (checkConsensus s).1 =
      if (countVotes s .approve : ℤ) ≥ requiredVotes s then
        { s with status := .approved }
      else if (countVotes s .reject : ℚ) > (s.participants.length : ℚ) / 2 then
        { s with status := .rejected }
      else if s.votes.length = s.participants.length then
        { s with status := .rejected }
      else s := by
  simp only [checkConsensus]
  split_ifs <;> rfl

/-- Unfolding lemma: the concluding-rule component of `checkConsensus`. -/
theorem checkConsensus_snd (s : RoundtableSession) :
    (checkConsensus s).2 =
      if (countVotes s .approve : ℤ) ≥ requiredVotes s then
        some .approvedQuorum
      else if (countVotes s .reject : ℚ) > (s.participants.length : ℚ) / 2 then
        some .rejectedMajority
      else if s.votes.length = s.participants.length then
        some .rejectedExhaustion
      else none := by
  simp only [checkConsensus]
  split_ifs <;> rfl

/-- Evaluating consensus right after one more vote is recorded on an active
session that satisfied the invariant re-establishes the invariant. -/
theorem checkConsensus_after_vote {N : ℕ} {req : ℤ} (s : RoundtableSession)
    (aid : String) (v : VoteChoice)
    (hstat : s.status = .active)
    (hN : s.participants.length = N) (hreq : requiredVotes s = req)
    (hApre : (countVotes s .approve : ℤ) < req)
    (hRpre : 2 * countVotes s .reject ≤ N) :
    consensusInv N req (checkConsensus { s with votes := s.votes ++ [(aid, v)] }).1 := by
  have ha1 := countVotes_append s aid v .approve
  have hr1 := countVotes_append s aid v .reject
  have hreq1 : requiredVotes { s with votes := s.votes ++ [(aid, v)] } = req := hreq
  have hN1 : ({ s with votes := s.votes ++ [(aid, v)] } :
      RoundtableSession).participants.length = N := hN
  rw [checkConsensus_fst]
  by_cases hc1 : (countVotes { s with votes := s.votes ++ [(aid, v)] } .approve : ℤ) ≥
      requiredVotes { s with votes := s.votes ++ [(aid, v)] }
  · rw [if_pos hc1]
    rw [hreq1] at hc1
    refine ⟨hN, hreq, ?_, ?_, ?_⟩
    · intro hcontra
      rcases hcontra with hc | hc <;> simp at hc
    · intro _
      refine ⟨hc1, ?_⟩
      show 2 * countVotes { s with votes := s.votes ++ [(aid, v)] } .reject ≤ N
      rw [hr1]
      cases v with
      | approve => simpa using hRpre
      | reject =>
        exfalso
        rw [ha1] at hc1
        simp at hc1
        omega
      | abstain =>
        exfalso
        rw [ha1] at hc1
        simp at hc1
        omega
    · intro hcontra
      simp at hcontra
  · rw [if_neg hc1]
    rw [hreq1] at hc1
    push_neg at hc1
    by_cases hc2 : (countVotes { s with votes := s.votes ++ [(aid, v)] } .reject : ℚ) >
        (({ s with votes := s.votes ++ [(aid, v)] } :
          RoundtableSession).participants.length : ℚ) / 2
    · rw [if_pos hc2]
      refine ⟨hN, hreq, ?_, ?_, ?_⟩
      · intro hcontra
        rcases hcontra with hc | hc <;> simp at hc
      · intro hcontra
        simp at hcontra
      · intro _
        refine ⟨hc1, Or.inl ?_⟩
        show N < 2 * countVotes { s with votes := s.votes ++ [(aid, v)] } .reject
        have hhalf := (rej_gt_half_iff
          (countVotes { s with votes := s.votes ++ [(aid, v)] } .reject)
          s.participants.length).mp hc2
        omega
    · rw [if_neg hc2]
      by_cases hc3 : ({ s with votes := s.votes ++ [(aid, v)] } :
          RoundtableSession).votes.length =
          ({ s with votes := s.votes ++ [(aid, v)] } :
            RoundtableSession).participants.length
      · rw [if_pos hc3]
        refine ⟨hN, hreq, ?_, ?_, ?_⟩
        · intro hcontra
          rcases hcontra with hc | hc <;> simp at hc
        · intro hcontra
          simp at hcontra
        · intro _
          refine ⟨hc1, Or.inr ?_⟩
          show ({ s with votes := s.votes ++ [(aid, v)] } :
            RoundtableSession).votes.length = N
          rw [hc3]
          exact hN1
      · rw [if_neg hc3]
        refine ⟨hN, hreq, ?_, ?_, ?_⟩
        · intro _
          refine ⟨hc1, ?_, ?_⟩
          · show 2 * countVotes { s with votes := s.votes ++ [(aid, v)] } .reject ≤ N
            have hhalf := (rej_gt_half_iff
              (countVotes { s with votes := s.votes ++ [(aid, v)] } .reject)
              s.participants.length).not.mp hc2
            omega
          · show ({ s with votes := s.votes ++ [(aid, v)] } :
              RoundtableSession).votes.length ≠ N
            intro hcontra
            exact hc3 (hcontra.trans hN1.symm)
        · intro hcontra
          have hcontra2 : s.status = .approved := hcontra
          rw [hstat] at hcontra2
          simp at hcontra2
        · intro hcontra
          have hcontra2 : s.status = .rejected := hcontra
          rw [hstat] at hcontra2
          simp at hcontra2

/-- One `castVote` call preserves the consensus invariant. -/
theorem castVote_preserves_inv (reg : List FleetAgent) (now : ℤ) (aid : String)
    (v : VoteChoice) {N : ℕ} {req : ℤ} {s : RoundtableSession}
    (h : consensusInv N req s) : consensusInv N req (castVote reg now s aid v).1 := by
  obtain ⟨hN, hreq, hAct, hApp, hRej⟩ := h
  by_cases h1 : s.status ≠ .active
  · unfold castVote
    rw [if_pos h1]
    exact ⟨hN, hreq, hAct, hApp, hRej⟩
  push_neg at h1
  by_cases h2 : s.expiresAt < now
  · unfold castVote
    rw [if_neg (by simp [h1]), if_pos h2]
    refine ⟨hN, hreq, ?_, ?_, ?_⟩
    · intro _
      exact hAct (Or.inl h1)
    · intro hcontra
      simp at hcontra
    · intro hcontra
      simp at hcontra
  by_cases h3 : aid ∉ s.participants
  · unfold castVote
    rw [if_neg (by simp [h1]), if_neg h2, if_pos h3]
    exact ⟨hN, hreq, hAct, hApp, hRej⟩
  by_cases h4 : ∃ p ∈ s.votes, p.1 = aid
  · unfold castVote
    rw [if_neg (by simp [h1]), if_neg h2, if_neg h3, if_pos h4]
    exact ⟨hN, hreq, hAct, hApp, hRej⟩
  cases hA : getAgent reg aid with
  | none =>
    unfold castVote
    rw [if_neg (by simp [h1]), if_neg h2, if_neg h3, if_neg h4]
    simp only [hA]
    exact ⟨hN, hreq, hAct, hApp, hRej⟩
  | some agent =>
    by_cases h5 : agent.status = .suspended ∨ agent.status = .quarantined
    · unfold castVote
      rw [if_neg (by simp [h1]), if_neg h2, if_neg h3, if_neg h4]
      simp only [hA]
      rw [if_pos h5]
      exact ⟨hN, hreq, hAct, hApp, hRej⟩
    · unfold castVote
      rw [if_neg (by simp [h1]), if_neg h2, if_neg h3, if_neg h4]
      simp only [hA]
      rw [if_neg h5]
      obtain ⟨hApre, hRpre, -⟩ := hAct (Or.inl h1)
      show consensusInv N req
        (checkConsensus { s with votes := s.votes ++ [(aid, v)] }).1
      exact checkConsensus_after_vote s aid v h1 hN hreq hApre hRpre

/-- The consensus invariant holds along any sequence of votes. -/
theorem runVotes_inv (reg : List FleetAgent) (now : ℤ)
    (vs : List (String × VoteChoice)) {N : ℕ} {req : ℤ} {s : RoundtableSession}
    (h : consensusInv N req s) : consensusInv N req (runVotes reg now s vs) := by
  induction vs generalizing s with
  | nil => exact h
  | cons p ps ih => exact ih (castVote_preserves_inv reg now p.1 p.2 h)

/-- C2: starting from a fresh active session with `N ≥ 1` participants and
consensus fraction `f > 0`, after any sequence of `castVote` calls the
session is `approved` iff the approve count reached the quorum
`ceil(N·f)` while reject votes never exceeded `N/2`; it is `rejected` iff
the quorum was missed and either rejects exceeded `N/2` or all `N`
participants voted; and when the missed-quorum, majority-reject and
all-votes-in conditions hold simultaneously, the concluding rule reported
by `checkConsensus` is majority-reject, not exhaustion. -/
theorem roundtable_consensus_characterization (reg : List FleetAgent) (now : ℤ)
    (s : RoundtableSession) (vs : List (String × VoteChoice))
    (hact : s.status = .active) (hvotes : s.votes = [])
    (hN : 1 ≤ s.participants.length) (hf : 0 < s.requiredConsensus) :
    ((runVotes reg now s vs).status = .approved ↔
       requiredVotes s ≤ (countVotes (runVotes reg now s vs) .approve : ℤ) ∧
       2 * countVotes (runVotes reg now s vs) .reject ≤ s.participants.length) ∧
    ((runVotes reg now s vs).status = .rejected ↔
       (countVotes (runVotes reg now s vs) .approve : ℤ) < requiredVotes s ∧
       (s.participants.length < 2 * countVotes (runVotes reg now s vs) .reject ∨
        (runVotes reg now s vs).votes.length = s.participants.length)) ∧
    (∀ s2 : RoundtableSession,
       (countVotes s2 .approve : ℤ) < requiredVotes s2 →
       (s2.participants.length : ℚ) / 2 < (countVotes s2 .reject : ℚ) →
       s2.votes.length = s2.participants.length →
       (checkConsensus s2).2 = some .rejectedMajority) := by
  have hreqpos : 0 < requiredVotes s := by
    apply Int.ceil_pos.mpr
    apply mul_pos _ hf
    exact_mod_cast Nat.lt_of_lt_of_le Nat.zero_lt_one hN
  have hinv0 : consensusInv s.participants.length (requiredVotes s) s := by
    refine ⟨rfl, rfl, ?_, ?_, ?_⟩
    · intro _
      refine ⟨?_, ?_, ?_⟩
      · simp [countVotes, hvotes]
        omega
      · simp [countVotes, hvotes]
      · simp [hvotes]
        omega
    · intro hcontra
      rw [hact] at hcontra
      simp at hcontra
    · intro hcontra
      rw [hact] at hcontra
      simp at hcontra
  obtain ⟨hNf, hreqf, hActf, hAppf, hRejf⟩ := runVotes_inv reg now vs hinv0
  refine ⟨?_, ?_, ?_⟩
  · constructor
    · exact hAppf
    · intro hcond
      cases hfs : (runVotes reg now s vs).status with
      | active =>
        obtain ⟨ha, -, -⟩ := hActf (Or.inl hfs)
        omega
      | approved => rfl
      | rejected =>
        obtain ⟨ha, -⟩ := hRejf hfs
        omega
      | expired =>
        obtain ⟨ha, -, -⟩ := hActf (Or.inr hfs)
        omega
  · constructor
    · exact hRejf
    · intro hcond
      cases hfs : (runVotes reg now s vs).status with
      | active =>
        obtain ⟨-, hb, hc⟩ := hActf (Or.inl hfs)
        rcases hcond.2 with hmaj | hall
        · omega
        · exact absurd hall hc
      | approved =>
        obtain ⟨ha, -⟩ := hAppf hfs
        omega
      | rejected => rfl
      | expired =>
        obtain ⟨-, hb, hc⟩ := hActf (Or.inr hfs)
        rcases hcond.2 with hmaj | hall
        · omega
        · exact absurd hall hc
  · intro s2 hlt hmaj hall
    rw [checkConsensus_snd, if_neg (not_le.mpr hlt), if_pos hmaj]

/-- A second baseline agent for the two-participant roundtable. -/
def agentB1 : FleetAgent := { agentC1 with id := "b1" }

/-- A fresh two-participant session with consensus fraction 1/2. -/
def sessC2 : RoundtableSession :=
  { id := "s2", topic := "demo", taskId := none, participants := ["a1", "b1"],
    votes := [], requiredConsensus := 1/2, status := .active,
    createdAt := 0, expiresAt := 100 }

/-- C2 witness: the characterization instantiated on a concrete
two-participant session and one approve vote. -/
theorem roundtable_consensus_characterization_witness :
    ((runVotes [agentC1, agentB1] 0 sessC2 [("a1", .approve)]).status = .approved ↔
       requiredVotes sessC2 ≤
         (countVotes (runVotes [agentC1, agentB1] 0 sessC2 [("a1", .approve)])
           .approve : ℤ) ∧
       2 * countVotes (runVotes [agentC1, agentB1] 0 sessC2 [("a1", .approve)])
         .reject ≤ sessC2.participants.length) ∧
    ((runVotes [agentC1, agentB1] 0 sessC2 [("a1", .approve)]).status = .rejected ↔
       (countVotes (runVotes [agentC1, agentB1] 0 sessC2 [("a1", .approve)])
         .approve : ℤ) < requiredVotes sessC2 ∧
       (sessC2.participants.length <
          2 * countVotes (runVotes [agentC1, agentB1] 0 sessC2 [("a1", .approve)])
            .reject ∨
        (runVotes [agentC1, agentB1] 0 sessC2 [("a1", .approve)]).votes.length =
          sessC2.participants.length)) ∧
    (∀ s2 : RoundtableSession,
       (countVotes s2 .approve : ℤ) < requiredVotes s2 →
       (s2.participants.length : ℚ) / 2 < (countVotes s2 .reject : ℚ) →
       s2.votes.length = s2.participants.length →
       (checkConsensus s2).2 = some .rejectedMajority) :=
  roundtable_consensus_characterization [agentC1, agentB1] 0 sessC2
    [("a1", .approve)] rfl rfl (by decide) (by norm_num [sessC2])

end Spiralverse
